import Mathlib

/-!
Verification development for the host-side MCU interface module
(klippy/mcu.py) of a 3D-printer control stack.

The Python module is shallowly embedded: methods that mutate object state
become Lean functions from an explicit state to a new state together with
the list of observable effects (wire commands queued or sent, native calls,
log lines, process exit).  Python arbitrary-precision integers are modelled
as Int or Nat; Python floats appearing in the relevant code paths carry
exact decimal values, so they are modelled as Rat.  Bit masking with
0xffffffff on a (possibly negative) Python int is reduction modulo 2^32 and
is embedded as emod.
-/

namespace Mcu

/-! ### Python numeric and string helpers -/

/-- Truncation toward zero, the behaviour of the Python builtin int() on a
numeric value, here on an exact rational. -/
def pyInt (q : ℚ) : ℤ := if q < 0 then -Int.floor (-q) else Int.floor q

/-- The character class stripped by the Python str.strip() builtin. -/
def pyWs (c : Char) : Bool :=
  c = ' ' || c = '\t' || c = '\n' || c = '\r' || c = '\x0b' || c = '\x0c'

/-- Python str.strip(): drop whitespace from both ends. -/
def pyStrip (s : String) : String :=
  ⟨(((s.data.dropWhile pyWs).reverse.dropWhile pyWs).reverse : List Char)⟩

/-- Python s.startswith(c) for a single-character prefix. -/
def pyStartsWith (s : String) (c : Char) : Bool :=
  match s.data with
  | [] => false
  | a :: _ => a = c

/-- Python s[1:]. -/
def pyDrop1 (s : String) : String := ⟨s.data.drop 1⟩

/-- Python c in s for a single character. -/
def pyContainsChar (s : String) (c : Char) : Bool := s.data.contains c

/-- Splitting helper for pySplit: accumulates the current piece reversed. -/
def pySplitAux (sep : Char) : List Char → List Char → List String
  | [], acc => [⟨acc.reverse⟩]
  | c :: rest, acc =>
    if c = sep then ⟨acc.reverse⟩ :: pySplitAux sep rest []
    else pySplitAux sep rest (c :: acc)

/-- Python s.split(sep) for a single-character separator. -/
def pySplit (sep : Char) (s : String) : List String := pySplitAux sep s.data []

/-- Python sep.join(xs) for the newline separator. -/
def pyJoinNl : List String → String
  | [] => ""
  | [s] => s
  | s :: rest => s ++ "\n" ++ pyJoinNl rest

/-! ### Pin parsing: parse_pin_extras -/

/-- Embedding of parse_pin_extras(pin, can_pullup=False).  A leading caret
(honoured only when can_pullup is set) sets pullup and invert and is
stripped; a then-leading bang toggles invert and is stripped.  Returns
(pin, pullup, invert). -/
def parse_pin_extras (pin : String) (can_pullup : Bool) :
    String × ℕ × ℕ :=
  let r1 : String × ℕ × ℕ :=
    if can_pullup && pyStartsWith pin '^' then (pyStrip (pyDrop1 pin), 1, 1)
    else (pin, 0, 0)
  if pyStartsWith r1.1 '!' then
    (pyStrip (pyDrop1 r1.1), r1.2.1, r1.2.2 ^^^ 1)
  else r1

/-! ### Stepper: MCU_stepper -/

/-- Mutable state of one MCU_stepper: the remembered direction (sdir = -1
means unknown, as set by init and note_stepper_stop), the clock of the most
recent move, and the wiring inversion flag for the direction pin. -/
structure StepperState where
  sdir : ℤ
  last_move_clock : ℤ
  invert_dir : ℤ
deriving DecidableEq

/-- State produced by MCU_stepper init: sdir = -1, last_move_clock = -2^29. -/
def stepperInit (invert_dir : ℤ) : StepperState :=
  { sdir := -1, last_move_clock := -(2 ^ 29), invert_dir := invert_dir }

/-- Embedding of MCU_stepper.note_stepper_stop: discard the direction memory
and push last_move_clock far into the past. -/
def note_stepper_stop (s : StepperState) : StepperState :=
  { s with sdir := -1, last_move_clock := -(2 ^ 29) }

/-- The two values produced by MCU_stepper.reset_step_clock: the clock passed
unmasked to the native stepcompress_reset, and the clock field of the queued
reset_step_clock message, which the source masks with 0xffffffff (reduction
modulo 2^32 on a Python int). -/
structure ResetCmd where
  resetArg : ℤ
  msgClock : ℤ
deriving DecidableEq

/-- Embedding of MCU_stepper.reset_step_clock(clock). -/
def reset_step_clock (clock : ℤ) : ResetCmd :=
  { resetArg := clock, msgClock := clock % 2 ^ 32 }

/-- Observable effects queued by a stepper through its step-compression
queue: a reset_step_clock command or a set_next_step_dir command carrying
the wire direction value. -/
inductive StepEvent
  | reset (r : ResetCmd)
  | dir (v : ℤ)
deriving DecidableEq

/-- Tests whether an event is a queued set_next_step_dir command. -/
def StepEvent.isDir : StepEvent → Bool
  | .dir _ => true
  | .reset _ => false

/-- Embedding of MCU_stepper.set_next_step_dir(sdir, clock): when the clock
window since last_move_clock reaches 2^29 the stepper first queues a
reset_step_clock; last_move_clock is then updated; a direction command with
value sdir XOR invert_dir is queued only when the direction changed. -/
def set_next_step_dir (s : StepperState) (sdir clock : ℤ) :
    StepperState × List StepEvent :=
  let evs := if clock - s.last_move_clock ≥ 2 ^ 29
    then [StepEvent.reset (reset_step_clock clock)] else []
  let s1 : StepperState := { s with last_move_clock := clock }
  if s.sdir = sdir then (s1, evs)
  else ({ s1 with sdir := sdir },
    evs ++ [StepEvent.dir (Int.xor sdir s.invert_dir)])

/-! ### Session config building: MCU.build_config and the CRC -/

/-- One bit-round of the reflected CRC-32 (polynomial 0xEDB88320). -/
def crc32Round (c : ℕ) : ℕ :=
  if c % 2 = 1 then (c / 2) ^^^ 0xEDB88320 else c / 2

/-- Folds one byte into a running CRC-32 accumulator. -/
def crc32Byte (crc b : ℕ) : ℕ :=
  (List.range 8).foldl (fun c _ => crc32Round c) (crc ^^^ b)

/-- The unsigned 32-bit CRC-32 of a byte list, the value of
zlib.crc32(s) & 0xffffffff. -/
def crc32 (bytes : List ℕ) : ℕ :=
  (bytes.foldl crc32Byte 0xFFFFFFFF) ^^^ 0xFFFFFFFF

/-- CRC-32 of a string, bytewise over its character codes (the config
commands are ASCII). -/
def crc32Str (s : String) : ℕ := crc32 (s.data.map Char.toNat)

/-- Processing of one line of the user-supplied custom config block inside
MCU._add_custom: strip, cut at the first hash character and strip again,
drop the line when empty. -/
def customLine (line : String) : Option String :=
  let l1 := pyStrip line
  let l2 := if pyContainsChar l1 '#'
    then pyStrip ⟨l1.data.takeWhile (fun c => !(c = '#'))⟩ else l1
  if l2 = "" then none else some l2

/-- Embedding of MCU._add_custom: the config commands contributed by the
raw custom option. -/
def add_custom (data : String) : List String :=
  (pySplit '\n' data).filterMap customLine

/-- Result of MCU.build_config: the final ordered config command list and
the computed config CRC. -/
structure BuildResult where
  cmds : List String
  crc : ℕ
deriving DecidableEq

/-- Embedding of MCU.build_config.  The session state going in is the number
of allocated oids, the config commands added by device construction, and the
raw custom option.  Pin-name resolution is the map upd over every command;
the pins module is outside this repository, so upd is kept abstract
(modelled from the spec: pins.update_command rewrites symbolic pin names in
a command text, and is the identity on a command containing none). -/
def build_config (num_oids : ℕ) (cmds : List String) (custom : String)
    (upd : String → String) : BuildResult :=
  let c1 := cmds ++ add_custom custom
  let c2 := ("allocate_oids count=" ++ toString num_oids) :: c1
  let c3 := c2.map upd
  let crc := crc32Str (pyJoinNl c3) &&& 0xffffffff
  { cmds := c3 ++ ["finalize_config crc=" ++ toString crc], crc := crc }

/-! ### Session commit handshake: MCU._send_config -/

/-- One firmware response to get_config, the fields read by _send_config. -/
structure ConfigResp where
  is_config : Bool
  crc : ℕ
  move_count : ℕ
deriving DecidableEq

/-- Outcome of the commit handshake: a fatal process exit with a log line
and status, construction of the stepper synchroniser with the reported
move_count, or running out of modelled responses. -/
inductive SendConfigResult
  | fatalExit (log : String) (status : ℕ)
  | configured (move_count : ℕ)
  | incomplete
deriving DecidableEq

/-- Embedding of the MCU._send_config loop over the successive config
responses the reactor delivers: while is_config is false the host sends the
config commands and asks again; on the first is_config response the CRCs
are compared, a mismatch logging an error and exiting with status 1, a
match constructing the synchroniser with the reported move_count. -/
def send_config (config_crc : ℕ) : List ConfigResp → SendConfigResult
  | [] => .incomplete
  | r :: rs =>
    if r.is_config = false then send_config config_crc rs
    else if config_crc ≠ r.crc then
      .fatalExit "Printer CRC does not match config" 1
    else .configured r.move_count

/-! ### Shutdown handling: MCU.handle_shutdown -/

/-- Effects of handling a shutdown message: the log line with the firmware
supplied name and message, the SerialLink debug dump request, and the
printer shutdown signal. -/
inductive SessionEffect
  | logShutdown (name msg : String)
  | dumpDebug
  | printerShutdown
deriving DecidableEq

/-- Embedding of MCU.handle_shutdown over the is_shutdown flag: the first
message sets the flag and performs the three effects, later ones return
immediately. -/
def handle_shutdown (is_shutdown : Bool) (name msg : String) :
    Bool × List SessionEffect :=
  if is_shutdown then (is_shutdown, [])
  else (true, [.logShutdown name msg, .dumpDebug, .printerShutdown])

/-- Harness folding handle_shutdown over a list of shutdown messages,
accumulating all effects. -/
def run_shutdown_msgs (is_shutdown : Bool) (msgs : List (String × String)) :
    Bool × List SessionEffect :=
  msgs.foldl (fun acc m =>
    let r := handle_shutdown acc.1 m.1 m.2
    (r.1, acc.2 ++ r.2)) (is_shutdown, [])

/-! ### ADC: MCU_adc -/

/-- Mutable state of one MCU_adc that set_minmax and query_analog_in read
and write. -/
structure AdcState where
  min_sample : ℤ
  max_sample : ℤ
  sample_ticks : ℤ
  sample_count : ℤ
  max_adc_inv : ℚ
deriving DecidableEq

/-- State produced by MCU_adc init. -/
def adcInit : AdcState :=
  { min_sample := 0, max_sample := 0xffff, sample_ticks := 0,
    sample_count := 1, max_adc_inv := 0 }

/-- Embedding of MCU_adc.set_minmax(sample_ticks, sample_count, minval,
maxval).  An omitted minval defaults to 0 and an omitted maxval defaults to
0xffff; max_adc is sample_count times the 10-bit ADC_MAX of 1024;
min_sample truncates minval times max_adc with the Python int() builtin and
max_sample caps the ceiling of maxval times max_adc at 0xffff. -/
def set_minmax (s : AdcState) (sample_ticks sample_count : ℤ)
    (minval maxval : Option ℚ) : AdcState :=
  let minv := minval.getD 0
  let maxv := maxval.getD 0xffff
  let max_adc : ℚ := (sample_count : ℚ) * 1024
  { s with
    sample_ticks := sample_ticks
    sample_count := sample_count
    min_sample := pyInt (minv * max_adc)
    max_sample := min 0xffff (Int.ceil (maxv * max_adc))
    max_adc_inv := 1 / max_adc }

/-- The query_analog_in wire command as encoded by MCU_adc.query_analog_in. -/
structure QueryAnalogCmd where
  oid : ℕ
  clock : ℤ
  sample_ticks : ℤ
  sample_count : ℤ
  rest_ticks : ℤ
  min_value : ℤ
  max_value : ℤ
deriving DecidableEq

/-- Embedding of MCU_adc.query_analog_in(report_clock).  The start clock
staggers sampling per oid; min_value and max_value are the stored
min_sample and max_sample. -/
def query_analog_in (s : AdcState) (oid : ℕ) (mcu_freq : ℚ) (cur_clock : ℤ)
    (report_clock : ℤ) : QueryAnalogCmd :=
  let clock := cur_clock + pyInt (mcu_freq * (1 + (oid : ℚ) * (1 / 100)))
  { oid := oid, clock := clock, sample_ticks := s.sample_ticks,
    sample_count := s.sample_count, rest_ticks := report_clock,
    min_value := s.min_sample, max_value := s.max_sample }

/-! ### Scheduled output queues: MCU_digital_out and MCU_pwm -/

/-- One call of SerialLink.send as issued by a scheduled output: the wire
value and the minclock and reqclock pacing parameters. -/
structure SendCmd where
  value : ℤ
  minclock : ℤ
  reqclock : ℤ
deriving DecidableEq

namespace MCU_digital_out

/-- Embedding of MCU_digital_out.set_digital(clock, value) over the
last_clock cursor: sends schedule_digital_out with value XOR invert,
minclock the previous clock and reqclock the new clock, then records the
new clock.  Returns the new last_clock and the send. -/
def set_digital (last_clock invert clock value : ℤ) : ℤ × SendCmd :=
  (clock, { value := Int.xor value invert,
            minclock := last_clock, reqclock := clock })

/-- Harness folding set_digital over a call list from a given last_clock. -/
def sendsAux (invert : ℤ) : ℤ → List (ℤ × ℤ) → List SendCmd
  | _, [] => []
  | last, c :: rest =>
    (set_digital last invert c.1 c.2).2 ::
      sendsAux invert (set_digital last invert c.1 c.2).1 rest

/-- The sends of a whole call sequence, from the initial last_clock of 0
set by MCU_digital_out init. -/
def sends (invert : ℤ) (calls : List (ℤ × ℤ)) : List SendCmd :=
  sendsAux invert 0 calls

end MCU_digital_out

namespace MCU_pwm

/-- Embedding of MCU_pwm.set_pwm(clock, value) over the last_clock cursor:
sends the scheduled pwm update with minclock the previous clock and
reqclock the new clock, then records the new clock. -/
def set_pwm (last_clock clock value : ℤ) : ℤ × SendCmd :=
  (clock, { value := value, minclock := last_clock, reqclock := clock })

/-- Harness folding set_pwm over a call list from a given last_clock. -/
def sendsAux : ℤ → List (ℤ × ℤ) → List SendCmd
  | _, [] => []
  | last, c :: rest =>
    (set_pwm last c.1 c.2).2 :: sendsAux (set_pwm last c.1 c.2).1 rest

/-- The sends of a whole call sequence, from the initial last_clock of 0
set by MCU_pwm init. -/
def sends (calls : List (ℤ × ℤ)) : List SendCmd := sendsAux 0 calls

end MCU_pwm

/-! ### PWM object creation: MCU.create_pwm -/

/-- The kind of device object MCU.create_pwm returns, with the constructor
arguments that distinguish the branches. -/
inductive PwmKind
  | hardPwm (cycle_ticks : ℚ) (max_duration : ℤ)
  | softPwm (cycle_ticks : ℤ) (max_duration : ℤ)
  | digitalOut (max_duration : ℤ)
deriving DecidableEq

/-- Embedding of MCU.create_pwm(pin, hard_cycle_ticks, max_duration=2.).
The first test is Python truthiness of the numeric hard_cycle_ticks, that
is hard_cycle_ticks different from 0; only a falsy value reaches the
later negativity test. -/
def create_pwm (clock_freq : ℚ) (hard_cycle_ticks : ℚ)
    (max_duration : ℚ) : PwmKind :=
  let md := pyInt (max_duration * clock_freq)
  if hard_cycle_ticks ≠ 0 then .hardPwm hard_cycle_ticks md
  else if hard_cycle_ticks < 0 then .digitalOut md
  else .softPwm (pyInt (clock_freq / 10)) md

/-! ### Theorems -/

/-- Closed form of one set_next_step_dir call: the new state always carries
the requested direction and clock, the reset is queued exactly when the
clock window was reached, and the direction command exactly when the
direction changed. -/
lemma set_next_step_dir_eq (s : StepperState) (d c : ℤ) :
    set_next_step_dir s d c
      = (⟨d, c, s.invert_dir⟩,
         (if c - s.last_move_clock ≥ 2 ^ 29
           then [StepEvent.reset (reset_step_clock c)] else []) ++
         (if s.sdir = d then []
           else [StepEvent.dir (Int.xor d s.invert_dir)])) := by
  cases s with
  | mk sd lmc inv =>
    unfold set_next_step_dir
    by_cases hd : sd = d <;>
      by_cases hc : c - lmc ≥ 2 ^ 29 <;>
        simp_all

/-- C1: whenever set_next_step_dir is called with
clock - last_move_clock at least 2^29, the stepper first queues
reset_step_clock(clock), before any direction command, and the new state
records last_move_clock = clock; in particular from a state with
last_move_clock = 0 and no direction memory, set_next_step_dir(1, 2^29)
queues both the reset and a direction command. -/
theorem c1_clock_window_reset (s : StepperState) (d c : ℤ)
    (h : c - s.last_move_clock ≥ 2 ^ 29) :
    (∃ rest, (set_next_step_dir s d c).2
        = StepEvent.reset (reset_step_clock c) :: rest) ∧
    (set_next_step_dir s d c).1.last_move_clock = c ∧
    (set_next_step_dir { sdir := -1, last_move_clock := 0, invert_dir := 0 }
        1 (2 ^ 29)).2
      = [StepEvent.reset (reset_step_clock (2 ^ 29)), StepEvent.dir 1] := by
  refine ⟨?_, ?_, by decide⟩
  · rw [set_next_step_dir_eq, if_pos h]
    exact ⟨_, rfl⟩
  · rw [set_next_step_dir_eq]

/-- C1 witness at a concrete state and clock. -/
theorem c1_clock_window_reset_witness :
    (set_next_step_dir { sdir := -1, last_move_clock := 0, invert_dir := 0 }
        1 (2 ^ 29)).1.last_move_clock = 2 ^ 29 :=
  (c1_clock_window_reset
    { sdir := -1, last_move_clock := 0, invert_dir := 0 } 1 (2 ^ 29)
    (by norm_num)).2.1

/-- C2: a set_next_step_dir call queues a direction command exactly when
the direction differs from the remembered one; the remembered direction
after a call is the call argument, so repeating a direction queues
nothing; note_stepper_stop resets the memory to the unknown value -1, after
which a call with either wire direction value 0 or 1 queues a direction
command carrying the value XOR invert_dir. -/
lemma any_isDir_reset (b : Prop) [Decidable b] (r : ResetCmd) :
    ((if b then [StepEvent.reset r] else []).any StepEvent.isDir) = false := by
  split <;> rfl

lemma filter_isDir_reset (b : Prop) [Decidable b] (r : ResetCmd) :
    (if b then [StepEvent.reset r] else []).filter StepEvent.isDir = [] := by
  split <;> rfl

theorem c2_direction_echo (s : StepperState) (d c : ℤ) :
    ((set_next_step_dir s d c).2.any StepEvent.isDir = true ↔ d ≠ s.sdir) ∧
    (d ≠ s.sdir → (set_next_step_dir s d c).2.filter StepEvent.isDir
        = [StepEvent.dir (Int.xor d s.invert_dir)]) ∧
    (set_next_step_dir s d c).1.sdir = d ∧
    (∀ c2, (set_next_step_dir (set_next_step_dir s d c).1 d c2).2.any
        StepEvent.isDir = false) ∧
    (note_stepper_stop s).sdir = -1 ∧
    (∀ d2 c2, (d2 = 0 ∨ d2 = 1) →
      (set_next_step_dir (note_stepper_stop s) d2 c2).2.any
          StepEvent.isDir = true) := by
  refine ⟨?_, ?_, ?_, ?_, rfl, ?_⟩
  · rw [set_next_step_dir_eq, List.any_append, any_isDir_reset]
    by_cases hd : s.sdir = d
    · simp [hd]
    · simp only [hd, if_false, Bool.false_or, List.any_cons, List.any_nil,
        StepEvent.isDir, Bool.or_false, true_iff]
      exact fun h => hd h.symm
  · intro hd
    rw [set_next_step_dir_eq, List.filter_append, filter_isDir_reset]
    have hd2 : ¬ s.sdir = d := fun h => hd h.symm
    simp [hd2, StepEvent.isDir]
  · rw [set_next_step_dir_eq]
  · intro c2
    rw [set_next_step_dir_eq, set_next_step_dir_eq, List.any_append,
      any_isDir_reset]
    simp
  · intro d2 c2 hd2
    rw [set_next_step_dir_eq, List.any_append, any_isDir_reset]
    have hne : ¬ (note_stepper_stop s).sdir = d2 := by
      rcases hd2 with h | h <;> simp [note_stepper_stop, h]
    simp [hne, StepEvent.isDir]

/-- C2 witness: after a stop, direction 1 queues a direction command. -/
theorem c2_direction_echo_witness :
    (set_next_step_dir (note_stepper_stop (stepperInit 0)) 1 5).2.any
        StepEvent.isDir = true :=
  (c2_direction_echo (note_stepper_stop (stepperInit 0)) 1 5).2.2.2.2.2
    1 5 (Or.inr rfl)

/-- C6: pin parsing satisfies the four reference cases, and a caret prefix
never sets the pullup bit when the peripheral does not accept input
pull-ups. -/
theorem c6_pin_parsing :
    parse_pin_extras "^!PA0" true = ("PA0", 1, 0) ∧
    parse_pin_extras "!PA0" true = ("PA0", 0, 1) ∧
    parse_pin_extras "^PA0" true = ("PA0", 1, 1) ∧
    parse_pin_extras "PA0" true = ("PA0", 0, 0) ∧
    ∀ p, (parse_pin_extras p false).2.1 = 0 := by
  refine ⟨by decide, by decide, by decide, by decide, ?_⟩
  intro p
  unfold parse_pin_extras
  simp only [Bool.false_and, Bool.false_eq_true, if_false]
  split <;> rfl

/-- C9: the digital-out branch of create_pwm is unreachable for every
numeric hard_cycle_ticks: a truthy (nonzero) value takes the hard PWM
branch and the falsy value 0 fails the negativity test and takes the soft
PWM branch. -/
theorem c9_create_pwm_unreachable (f x md : ℚ) :
    (∀ mdz, create_pwm f x md ≠ PwmKind.digitalOut mdz) ∧
    (x ≠ 0 → create_pwm f x md = PwmKind.hardPwm x (pyInt (md * f))) ∧
    (x = 0 → create_pwm f x md
        = PwmKind.softPwm (pyInt (f / 10)) (pyInt (md * f))) := by
  unfold create_pwm
  by_cases hx : x = 0
  · subst hx
    simp
  · simp [hx]

/-- C9 witness at a 16 MHz clock and hard_cycle_ticks 0. -/
theorem c9_create_pwm_unreachable_witness :
    create_pwm 16000000 0 2
      = PwmKind.softPwm (pyInt ((16000000 : ℚ) / 10))
          (pyInt ((2 : ℚ) * 16000000)) :=
  (c9_create_pwm_unreachable 16000000 0 2).2.2 rfl

/-- C10: reset_step_clock passes the unmasked clock to the native reset and
queues a message whose clock field is the clock reduced modulo 2^32; the
two agree exactly for clocks in the interval from 0 up to 2^32. -/
theorem c10_reset_clock_masking (c : ℤ) :
    (reset_step_clock c).resetArg = c ∧
    (reset_step_clock c).msgClock = c % 2 ^ 32 ∧
    ((reset_step_clock c).msgClock = c ↔ 0 ≤ c ∧ c < 2 ^ 32) := by
  refine ⟨rfl, rfl, ?_, ?_⟩
  · intro h
    have h0 : (0 : ℤ) ≤ c % 2 ^ 32 := Int.emod_nonneg c (by norm_num)
    have h1 : c % 2 ^ 32 < 2 ^ 32 := Int.emod_lt_of_pos c (by norm_num)
    rw [show (reset_step_clock c).msgClock = c % 2 ^ 32 from rfl] at h
    rw [h] at h0 h1
    exact ⟨h0, h1⟩
  · rintro ⟨h0, h1⟩
    exact Int.emod_eq_of_lt h0 h1


set_option maxRecDepth 4000 in
/-- C3: build_config prepends the oid allocation command, computes the
masked CRC-32 over the newline-joined command list excluding the
finalize_config line, and appends the finalize_config command last; with
no devices and no custom config the command list is exactly the allocation
line followed by the finalize line whose crc is that of the allocation
line alone. -/
theorem c3_build_config (n : ℕ) (cmds : List String) (custom : String)
    (upd : String → String) :
    (build_config n cmds custom upd).cmds
      = (("allocate_oids count=" ++ toString n)
            :: (cmds ++ add_custom custom)).map upd
        ++ ["finalize_config crc="
            ++ toString (build_config n cmds custom upd).crc] ∧
    (build_config n cmds custom upd).crc
      = crc32Str (pyJoinNl ((build_config n cmds custom upd).cmds.dropLast))
          &&& 0xffffffff ∧
    (build_config n cmds custom upd).crc < 2 ^ 32 ∧
    build_config 0 [] "" id
      = ⟨["allocate_oids count=0", "finalize_config crc=3912464276"],
         3912464276⟩ := by
  refine ⟨rfl, ?_, Nat.and_lt_two_pow _ (by norm_num), by decide⟩
  show crc32Str (pyJoinNl ((("allocate_oids count=" ++ toString n)
      :: (cmds ++ add_custom custom)).map upd)) &&& 0xffffffff
    = crc32Str (pyJoinNl ((build_config n cmds custom upd).cmds.dropLast))
        &&& 0xffffffff
  rw [show (build_config n cmds custom upd).cmds
      = (("allocate_oids count=" ++ toString n)
            :: (cmds ++ add_custom custom)).map upd
        ++ ["finalize_config crc="
            ++ toString (build_config n cmds custom upd).crc] from rfl]
  rw [List.dropLast_concat]

/-- C4: in the commit handshake, when the first response with is_config
true carries a crc different from the host config_crc, the session logs
the mismatch message and exits with status 1; the stepper synchroniser is
constructed with the reported move_count only when the CRCs agree. -/
theorem c4_crc_mismatch (config_crc : ℕ) (rs : List ConfigResp) :
    (∀ r, rs.find? (fun x => x.is_config) = some r →
      (r.crc ≠ config_crc →
        send_config config_crc rs
          = SendConfigResult.fatalExit "Printer CRC does not match config" 1) ∧
      (r.crc = config_crc →
        send_config config_crc rs = SendConfigResult.configured r.move_count)) ∧
    (∀ mc, send_config config_crc rs = SendConfigResult.configured mc →
      ∃ r, rs.find? (fun x => x.is_config) = some r ∧ r.crc = config_crc ∧
        r.move_count = mc) := by
  induction rs with
  | nil => exact ⟨by simp, by simp [send_config]⟩
  | cons r rest ih =>
    by_cases hc : r.is_config = true
    · constructor
      · intro r2 hr2
        rw [List.find?_cons_of_pos _ (by simp [hc])] at hr2
        cases hr2
        constructor
        · intro hne
          unfold send_config
          rw [if_neg (by simp [hc]), if_pos (fun h => hne h.symm)]
        · intro heq
          unfold send_config
          rw [if_neg (by simp [hc]), if_neg (by simp [heq])]
      · intro mc hmc
        unfold send_config at hmc
        rw [if_neg (by simp [hc])] at hmc
        by_cases hne : config_crc ≠ r.crc
        · rw [if_pos hne] at hmc
          cases hmc
        · rw [if_neg hne] at hmc
          cases hmc
          refine ⟨r, ?_, ?_, rfl⟩
          · rw [List.find?_cons_of_pos _ (by simp [hc])]
          · simpa using (not_ne_iff.mp hne).symm
    · have hcf : r.is_config = false := by simpa using hc
      constructor
      · intro r2 hr2
        rw [List.find?_cons_of_neg _ (by simp [hcf])] at hr2
        have h := (ih.1 r2 hr2)
        constructor
        · intro hne
          unfold send_config
          rw [if_pos hcf]
          exact h.1 hne
        · intro heq
          unfold send_config
          rw [if_pos hcf]
          exact h.2 heq
      · intro mc hmc
        unfold send_config at hmc
        rw [if_pos hcf] at hmc
        obtain ⟨r2, hfind, hcrc, hmv⟩ := ih.2 mc hmc
        refine ⟨r2, ?_, hcrc, hmv⟩
        rw [List.find?_cons_of_neg _ (by simp [hcf])]
        exact hfind

/-- C5: the first shutdown message sets is_shutdown and performs exactly
one log, one debug dump and one printer-shutdown signal; a message arriving
with is_shutdown already set changes nothing; two successive shutdown
messages from a fresh session produce exactly one dump and one
printer-shutdown invocation. -/
theorem c5_shutdown_idempotence (n1 m1 n2 m2 : String) :
    handle_shutdown false n1 m1
      = (true, [SessionEffect.logShutdown n1 m1, SessionEffect.dumpDebug,
                SessionEffect.printerShutdown]) ∧
    handle_shutdown true n1 m1 = (true, []) ∧
    (run_shutdown_msgs false [(n1, m1), (n2, m2)]).2.count
        SessionEffect.dumpDebug = 1 ∧
    (run_shutdown_msgs false [(n1, m1), (n2, m2)]).2.count
        SessionEffect.printerShutdown = 1 ∧
    (run_shutdown_msgs false [(n1, m1), (n2, m2)]).1 = true := by
  refine ⟨rfl, rfl, ?_, ?_, rfl⟩ <;>
    simp [run_shutdown_msgs, handle_shutdown, List.count_cons]

/-- C4 witness: a concrete mismatching handshake exits fatally. -/
theorem c4_crc_mismatch_witness :
    send_config 7 [⟨false, 0, 0⟩, ⟨true, 5, 16⟩]
      = SendConfigResult.fatalExit "Printer CRC does not match config" 1 :=
  ((c4_crc_mismatch 7 [⟨false, 0, 0⟩, ⟨true, 5, 16⟩]).1
    ⟨true, 5, 16⟩ (by decide)).1 (by decide)

/-- C7 counterexample: with maxval omitted and sample_count 1 the code
stores max_sample = 0xffff, not the value min(0xffff, ceil(1 * 1 * 1024))
= 1024 predicted by a default maxval of 1. -/
theorem c7_adc_default_counterexample :
    (set_minmax adcInit 8 1 none none).max_sample = 0xffff ∧
    (set_minmax adcInit 8 1 none none).max_sample
      ≠ min 0xffff (Int.ceil ((1 : ℚ) * ((1 : ℚ) * 1024))) := by
  constructor <;> (simp [set_minmax, adcInit]; norm_num)

/-- C7 amended: set_minmax stores min_sample = floor(minval * sample_count
* 1024) with minval defaulting to 0, and max_sample = min(0xffff,
ceil(maxval * sample_count * 1024)) with maxval defaulting to 0xffff (not
1) when omitted; the two stored values are the min_value and max_value
arguments of the subsequent query_analog_in command. -/
theorem c7_adc_minmax (s : AdcState) (st sc : ℤ) (minv maxv : Option ℚ)
    (hmin : 0 ≤ minv.getD 0) (hsc : 0 ≤ sc) :
    (set_minmax s st sc minv maxv).min_sample
      = Int.floor (minv.getD 0 * ((sc : ℚ) * 1024)) ∧
    (set_minmax s st sc minv maxv).max_sample
      = min 0xffff (Int.ceil (maxv.getD 0xffff * ((sc : ℚ) * 1024))) ∧
    ∀ (oid : ℕ) (freq : ℚ) (cur rep : ℤ),
      (query_analog_in (set_minmax s st sc minv maxv) oid freq cur
          rep).min_value
        = (set_minmax s st sc minv maxv).min_sample ∧
      (query_analog_in (set_minmax s st sc minv maxv) oid freq cur
          rep).max_value
        = (set_minmax s st sc minv maxv).max_sample := by
  refine ⟨?_, rfl, fun oid freq cur rep => ⟨rfl, rfl⟩⟩
  have hsc2 : (0 : ℚ) ≤ (sc : ℚ) := by exact_mod_cast hsc
  have hq : (0 : ℚ) ≤ minv.getD 0 * ((sc : ℚ) * 1024) :=
    mul_nonneg hmin (mul_nonneg hsc2 (by norm_num))
  show pyInt (minv.getD 0 * ((sc : ℚ) * 1024)) = _
  unfold pyInt
  rw [if_neg (not_lt.mpr hq)]

/-- C7 witness at sample_count 1 and minval one half. -/
theorem c7_adc_minmax_witness :
    (set_minmax adcInit 8 1 (some (1 / 2)) none).min_sample = 512 := by
  have h := (c7_adc_minmax adcInit 8 1 (some (1 / 2)) none (by norm_num)
    (by norm_num)).1
  rw [h]
  norm_num

lemma digital_sendsAux_clocks (invert last : ℤ) (calls : List (ℤ × ℤ)) :
    (MCU_digital_out.sendsAux invert last calls).map SendCmd.minclock
      = (last :: calls.map Prod.fst).dropLast ∧
    (MCU_digital_out.sendsAux invert last calls).map SendCmd.reqclock
      = calls.map Prod.fst := by
  induction calls generalizing last with
  | nil => simp [MCU_digital_out.sendsAux]
  | cons p rest ih =>
    obtain ⟨ih1, ih2⟩ := ih p.1
    refine ⟨?_, ?_⟩
    · simp only [MCU_digital_out.sendsAux, MCU_digital_out.set_digital,
        List.map_cons, ih1]
      cases rest <;> simp
    · simp [MCU_digital_out.sendsAux, MCU_digital_out.set_digital, ih2]

lemma pwm_sendsAux_clocks (last : ℤ) (calls : List (ℤ × ℤ)) :
    (MCU_pwm.sendsAux last calls).map SendCmd.minclock
      = (last :: calls.map Prod.fst).dropLast ∧
    (MCU_pwm.sendsAux last calls).map SendCmd.reqclock
      = calls.map Prod.fst := by
  induction calls generalizing last with
  | nil => simp [MCU_pwm.sendsAux]
  | cons p rest ih =>
    obtain ⟨ih1, ih2⟩ := ih p.1
    refine ⟨?_, ?_⟩
    · simp only [MCU_pwm.sendsAux, MCU_pwm.set_pwm, List.map_cons, ih1]
      cases rest <;> simp
    · simp [MCU_pwm.sendsAux, MCU_pwm.set_pwm, ih2]

/-- C8 counterexample: the code does not enforce non-decreasing reqclock
values; a caller issuing clocks 5 then 3 produces a decreasing reqclock
sequence. -/
theorem c8_reqclock_counterexample :
    ¬ List.Chain' (· ≤ ·)
      ((MCU_digital_out.sends 0 [(5, 1), (3, 0)]).map SendCmd.reqclock) := by
  rw [show (MCU_digital_out.sends 0 [(5, 1), (3, 0)]).map SendCmd.reqclock
      = [(5 : ℤ), 3] from rfl]
  norm_num [List.chain'_cons]

/-- C8 amended: over every sequence of set_digital or set_pwm calls, each
send carries minclock equal to the clock of the previous send on that
queue (0 for the first) and reqclock equal to the clock of its own call;
the reqclock values are therefore non-decreasing exactly when the caller
supplies non-decreasing clocks. -/
theorem c8_queue_clock_monotonicity (invert : ℤ) (calls : List (ℤ × ℤ)) :
    (MCU_digital_out.sends invert calls).map SendCmd.minclock
      = (0 :: calls.map Prod.fst).dropLast ∧
    (MCU_digital_out.sends invert calls).map SendCmd.reqclock
      = calls.map Prod.fst ∧
    (MCU_pwm.sends calls).map SendCmd.minclock
      = (0 :: calls.map Prod.fst).dropLast ∧
    (MCU_pwm.sends calls).map SendCmd.reqclock = calls.map Prod.fst ∧
    (List.Chain' (· ≤ ·) (calls.map Prod.fst) →
      List.Chain' (· ≤ ·)
          ((MCU_digital_out.sends invert calls).map SendCmd.reqclock) ∧
      List.Chain' (· ≤ ·) ((MCU_pwm.sends calls).map SendCmd.reqclock)) := by
  obtain ⟨h1, h2⟩ := digital_sendsAux_clocks invert 0 calls
  obtain ⟨h3, h4⟩ := pwm_sendsAux_clocks 0 calls
  exact ⟨h1, h2, h3, h4, fun hmono =>
    ⟨by rw [show (MCU_digital_out.sends invert calls).map SendCmd.reqclock
        = calls.map Prod.fst from h2]; exact hmono,
     by rw [show (MCU_pwm.sends calls).map SendCmd.reqclock
        = calls.map Prod.fst from h4]; exact hmono⟩⟩

/-- C8 witness: a non-decreasing call sequence yields non-decreasing
reqclocks. -/
theorem c8_queue_clock_monotonicity_witness :
    List.Chain' (· ≤ ·)
      ((MCU_digital_out.sends 0 [(1, 0), (2, 1)]).map SendCmd.reqclock) :=
  ((c8_queue_clock_monotonicity 0 [(1, 0), (2, 1)]).2.2.2.2
    (by norm_num [List.chain'_cons])).1
end Mcu
